import Mathlib

/-!
Verification of the deployment-target resolution and stack-lifecycle
orchestration layer of the AWS Secure Environment Accelerator.

The development shallowly embeds the relevant program fragments:

* the `handler` of `src/core/runtime/src/create-stack/create.ts` as a pure
  function from its input and an abstract template store to an outcome and
  the ordered list of external effects it performs;
* the `blockS3PublicAccess` and `createDefaultEbsEncryptionKey` loops of
  `src/deployments/cdk/src/deployments/defaults/step-1.ts` as folds over the
  configuration, with the lazily created account stacks abstracted as a
  boolean availability function;
* the `lambdaFunction` getter of the `Ec2AcceptVpcEndpointConnection`
  construct as a state transformer on a stack child list;
* the policy-statement construction of both `createMetadataService`
  definitions in `src/deployments/cdk/src/deployments/metadata-collection/index.ts`.

Optional string fields of the runtime input follow JavaScript semantics:
truthiness treats `undefined` and the empty string as false, and strict
equality compares defined strings by value.
-/

namespace Accelerator

/-- JavaScript truthiness of an optional string field: `undefined` and the
empty string are falsy, every other string is truthy. -/
def jsTruthy : Option String → Bool
  | none => false
  | some s => s != ""

/-- JavaScript strict equality on optional string fields: two defined
strings compare by value, `undefined` equals `undefined`, and a defined
string is never equal to `undefined`. -/
def jsStrictEq : Option String → Option String → Bool
  | some a, some b => a == b
  | none, none => true
  | _, _ => false

/-- Reference to a stack template resolved by `getTemplateBody` in the
external `create-stack-set` module; the handler treats it opaquely, so only
a descriptor string is modelled. -/
structure StackTemplateLocation where
  descriptor : String
deriving DecidableEq

/-- The input of the create-stack `handler` (create.ts, lines 21-32). -/
structure CreateStackInput where
  stackName : String
  stackCapabilities : List String
  stackParameters : List (String × String)
  stackTemplate : StackTemplateLocation
  accountId : Option String
  assumeRoleName : Option String
  region : Option String
  ignoreAccountId : Option String
  ignoreRegion : Option String
  parametersTableName : String
deriving DecidableEq

/-- The identity the CloudFormation client is bound to: the ambient identity
of the orchestrator, or delegated credentials for one account and role. -/
inductive CredentialSource where
  | ambient
  | delegated (accountId roleName : String)
deriving DecidableEq

/-- The create-or-update request submitted to the deployment-unit provider
(create.ts, lines 80-92). -/
structure CfnStackRequest where
  credentialSource : CredentialSource
  clientRegion : Option String
  stackName : String
  templateBody : String
  capabilities : List String
  parameters : List (String × String)
deriving DecidableEq

/-- One external call of the handler, in the order the code performs them:
the account-directory load (line 61), the template-body resolution
(line 78), the credential acquisition (line 82) and the provider call
(line 87). -/
inductive HandlerEffect where
  | loadAccountsCall (tableName : String)
  | getTemplateBodyCall (loc : StackTemplateLocation)
  | assumeRoleCall (accountId roleName : String)
  | createOrUpdateStackCall (req : CfnStackRequest)
deriving DecidableEq

/-- The outcome of one handler invocation: the silent early return of the
exclusion pre-check is `skipped`, a template-resolution failure propagates
as `templateError`, and otherwise the upsert is submitted. -/
inductive HandlerOutcome where
  | skipped
  | templateError (e : String)
  | completed
deriving DecidableEq

/-- The exclusion pre-check of the handler (create.ts, lines 53-57): the
first disjunct is the first `if` (account matches and no region constraint
is given), the second is the `else if` (both constraints given and both
match). -/
def shouldSkipUpsert (input : CreateStackInput) : Bool :=
  (jsTruthy input.ignoreAccountId
      && jsStrictEq input.ignoreAccountId input.accountId
      && !jsTruthy input.ignoreRegion)
    || (jsTruthy input.ignoreAccountId && jsTruthy input.ignoreRegion
      && jsStrictEq input.ignoreAccountId input.accountId
      && jsStrictEq input.ignoreRegion input.region)

/-- Shallow embedding of the create-stack `handler` (create.ts, lines
36-93), parametrised by the external template store. It returns the outcome
together with the ordered list of external effects: nothing at all on the
excluded path; the account load and the template resolution on the failing
path; and additionally the credential acquisition (exactly when both
`accountId` and `assumeRoleName` are truthy, line 81) and the provider call
on the completing path. The client is constructed with the delegated
credentials and the input region in the delegated case (line 83) and with
no arguments in the ambient case (line 85). -/
def handler (getTemplateBody : StackTemplateLocation → Except String String)
    (input : CreateStackInput) : HandlerOutcome × List HandlerEffect :=
  if shouldSkipUpsert input then
    (HandlerOutcome.skipped, [])
  else
    match getTemplateBody input.stackTemplate with
    | Except.error e =>
        (HandlerOutcome.templateError e,
          [HandlerEffect.loadAccountsCall input.parametersTableName,
            HandlerEffect.getTemplateBodyCall input.stackTemplate])
    | Except.ok templateBody =>
        if jsTruthy input.accountId && jsTruthy input.assumeRoleName then
          (HandlerOutcome.completed,
            [HandlerEffect.loadAccountsCall input.parametersTableName,
              HandlerEffect.getTemplateBodyCall input.stackTemplate,
              HandlerEffect.assumeRoleCall (input.accountId.getD "") (input.assumeRoleName.getD ""),
              HandlerEffect.createOrUpdateStackCall
                { credentialSource :=
                    CredentialSource.delegated (input.accountId.getD "") (input.assumeRoleName.getD ""),
                  clientRegion := input.region,
                  stackName := input.stackName,
                  templateBody := templateBody,
                  capabilities := input.stackCapabilities,
                  parameters := input.stackParameters }])
        else
          (HandlerOutcome.completed,
            [HandlerEffect.loadAccountsCall input.parametersTableName,
              HandlerEffect.getTemplateBodyCall input.stackTemplate,
              HandlerEffect.createOrUpdateStackCall
                { credentialSource := CredentialSource.ambient,
                  clientRegion := none,
                  stackName := input.stackName,
                  templateBody := templateBody,
                  capabilities := input.stackCapabilities,
                  parameters := input.stackParameters }])

/-- The first create-or-update request among the effects of a run, if any. -/
def submittedRequest : List HandlerEffect → Option CfnStackRequest
  | [] => none
  | HandlerEffect.createOrUpdateStackCall r :: _ => some r
  | _ :: rest => submittedRequest rest

/-- Whether a run acquired delegated credentials. -/
def callsAssumeRole (effects : List HandlerEffect) : Bool :=
  effects.any fun e =>
    match e with
    | HandlerEffect.assumeRoleCall _ _ => true
    | _ => false

/-- Whether a run called the deployment-unit provider. -/
def callsProvider (effects : List HandlerEffect) : Bool :=
  effects.any fun e =>
    match e with
    | HandlerEffect.createOrUpdateStackCall _ => true
    | _ => false

/-- A template store that always resolves, used to evaluate the theorems on
concrete inputs. -/
def okTemplateStore : StackTemplateLocation → Except String String :=
  fun _ => Except.ok "template-body"

/-- A template store whose resolution always fails. -/
def failingTemplateStore : StackTemplateLocation → Except String String :=
  fun _ => Except.error "TemplateNotFound"

/-- A concrete handler input with a delegated target and no exclusion. -/
def baseInput : CreateStackInput :=
  { stackName := "ASEA-SampleStack"
    stackCapabilities := ["CAPABILITY_NAMED_IAM"]
    stackParameters := [("Parameter", "Value")]
    stackTemplate := { descriptor := "templates/sample.json" }
    accountId := some "222222222222"
    assumeRoleName := some "ASEA-PipelineRole"
    region := some "ca-central-1"
    ignoreAccountId := none
    ignoreRegion := none
    parametersTableName := "ASEA-Parameters" }

lemma jsTruthy_eq_true (o : Option String) (h : jsTruthy o = true) : ∃ s, o = some s := by
  cases o with
  | none => simp [jsTruthy] at h
  | some s => exact ⟨s, rfl⟩

lemma handler_of_skip (getTemplateBody : StackTemplateLocation → Except String String)
    (input : CreateStackInput) (h : shouldSkipUpsert input = true) :
    handler getTemplateBody input = (HandlerOutcome.skipped, []) := by
  simp [handler, h]

lemma handler_not_skipped (getTemplateBody : StackTemplateLocation → Except String String)
    (input : CreateStackInput) (h : shouldSkipUpsert input = false) :
    (handler getTemplateBody input).1 ≠ HandlerOutcome.skipped := by
  unfold handler
  rw [h]
  simp only [Bool.false_eq_true, if_false]
  cases getTemplateBody input.stackTemplate with
  | error e => simp
  | ok body =>
    by_cases hc : (jsTruthy input.accountId && jsTruthy input.assumeRoleName) = true
    · simp [hc]
    · simp [hc]

lemma shouldSkipUpsert_of_accountOnly (input : CreateStackInput)
    (h1 : jsTruthy input.ignoreAccountId = true)
    (h2 : jsStrictEq input.ignoreAccountId input.accountId = true)
    (h3 : jsTruthy input.ignoreRegion = false) :
    shouldSkipUpsert input = true := by
  simp [shouldSkipUpsert, h1, h2, h3]

lemma shouldSkipUpsert_of_both (input : CreateStackInput)
    (h1 : jsTruthy input.ignoreAccountId = true)
    (h2 : jsTruthy input.ignoreRegion = true) :
    shouldSkipUpsert input
      = (jsStrictEq input.ignoreAccountId input.accountId
          && jsStrictEq input.ignoreRegion input.region) := by
  simp [shouldSkipUpsert, h1, h2]

lemma shouldSkipUpsert_of_no_accountId (input : CreateStackInput)
    (h : input.accountId = none) :
    shouldSkipUpsert input = false := by
  cases hIA : input.ignoreAccountId with
  | none => simp [shouldSkipUpsert, hIA, jsTruthy]
  | some s => simp [shouldSkipUpsert, hIA, h, jsStrictEq]

/-- C2: exclusion law for the upsert handler. A truthy `ignoreAccountId`
that strictly equals `accountId` with no region constraint skips the upsert
whatever the region; with both constraints truthy the upsert is skipped
exactly when both the account and the region match; and it is never dropped
on an account match alone when the region constraint is truthy but does not
match. -/
theorem exclusion_law_of_upsert_handler
    (getTemplateBody : StackTemplateLocation → Except String String)
    (i j k : CreateStackInput)
    (hi1 : jsTruthy i.ignoreAccountId = true)
    (hi2 : jsStrictEq i.ignoreAccountId i.accountId = true)
    (hi3 : jsTruthy i.ignoreRegion = false)
    (hj1 : jsTruthy j.ignoreAccountId = true)
    (hj2 : jsTruthy j.ignoreRegion = true)
    (hk1 : jsTruthy k.ignoreAccountId = true)
    (hk2 : jsTruthy k.ignoreRegion = true)
    (hk3 : jsStrictEq k.ignoreAccountId k.accountId = true)
    (hk4 : jsStrictEq k.ignoreRegion k.region = false) :
    (handler getTemplateBody i).1 = HandlerOutcome.skipped
      ∧ ((handler getTemplateBody j).1 = HandlerOutcome.skipped
          ↔ (jsStrictEq j.ignoreAccountId j.accountId = true
              ∧ jsStrictEq j.ignoreRegion j.region = true))
      ∧ (handler getTemplateBody k).1 ≠ HandlerOutcome.skipped := by
  refine ⟨?_, ?_, ?_⟩
  · rw [handler_of_skip getTemplateBody i (shouldSkipUpsert_of_accountOnly i hi1 hi2 hi3)]
  · have hj := shouldSkipUpsert_of_both j hj1 hj2
    cases hb : jsStrictEq j.ignoreAccountId j.accountId with
    | false =>
      have hskip : shouldSkipUpsert j = false := by rw [hj, hb]; rfl
      constructor
      · intro hs; exact absurd hs (handler_not_skipped getTemplateBody j hskip)
      · rintro ⟨h1, _⟩; exact absurd h1 (by simp [hb])
    | true =>
      cases hd : jsStrictEq j.ignoreRegion j.region with
      | false =>
        have hskip : shouldSkipUpsert j = false := by rw [hj, hb, hd]; rfl
        constructor
        · intro hs; exact absurd hs (handler_not_skipped getTemplateBody j hskip)
        · rintro ⟨_, h2⟩; exact absurd h2 (by simp [hd])
      | true =>
        have hskip : shouldSkipUpsert j = true := by rw [hj, hb, hd]; rfl
        rw [handler_of_skip getTemplateBody j hskip]
        exact ⟨fun _ => ⟨rfl, rfl⟩, fun _ => rfl⟩
  · have hskip : shouldSkipUpsert k = false := by
      rw [shouldSkipUpsert_of_both k hk1 hk2, hk3, hk4]; rfl
    exact handler_not_skipped getTemplateBody k hskip

/-- C2 witness: the exclusion law evaluated on three concrete inputs. -/
theorem exclusion_law_of_upsert_handler_witness :
    (handler okTemplateStore
        { baseInput with ignoreAccountId := some "222222222222" }).1 = HandlerOutcome.skipped
      ∧ ((handler okTemplateStore
            { baseInput with
                ignoreAccountId := some "222222222222"
                ignoreRegion := some "ca-central-1" }).1 = HandlerOutcome.skipped
          ↔ (jsStrictEq (some "222222222222") (some "222222222222") = true
              ∧ jsStrictEq (some "ca-central-1") (some "ca-central-1") = true))
      ∧ (handler okTemplateStore
            { baseInput with
                ignoreAccountId := some "222222222222"
                ignoreRegion := some "eu-west-1" }).1 ≠ HandlerOutcome.skipped :=
  exclusion_law_of_upsert_handler okTemplateStore _ _ _
    (by decide) (by decide) (by decide) (by decide) (by decide)
    (by decide) (by decide) (by decide) (by decide)

/-- C4: when the exclusion pre-check matches, the handler short-circuits
with a silent skip: the outcome is `skipped` and the run performs no effect
at all — no account-directory load, no template resolution, no credential
acquisition, and no call to the deployment-unit provider. -/
theorem exclusion_skip_is_silent
    (getTemplateBody : StackTemplateLocation → Except String String)
    (input : CreateStackInput) (h : shouldSkipUpsert input = true) :
    (handler getTemplateBody input).1 = HandlerOutcome.skipped
      ∧ (handler getTemplateBody input).2 = [] := by
  rw [handler_of_skip getTemplateBody input h]
  exact ⟨rfl, rfl⟩

/-- C4 witness: a concrete excluded target is skipped with no effects. -/
theorem exclusion_skip_is_silent_witness :
    (handler okTemplateStore
        { baseInput with ignoreAccountId := some "222222222222" }).1 = HandlerOutcome.skipped
      ∧ (handler okTemplateStore
          { baseInput with ignoreAccountId := some "222222222222" }).2 = [] :=
  exclusion_skip_is_silent okTemplateStore _ (by decide)

/-- C6: a template-resolution failure on a non-excluded input propagates as
a hard error: the outcome is the error itself, it is not a skip, and the run
makes no provider call and acquires no credentials. -/
theorem template_resolution_failure_is_hard_error
    (getTemplateBody : StackTemplateLocation → Except String String)
    (input : CreateStackInput) (e : String)
    (hns : shouldSkipUpsert input = false)
    (herr : getTemplateBody input.stackTemplate = Except.error e) :
    (handler getTemplateBody input).1 = HandlerOutcome.templateError e
      ∧ (handler getTemplateBody input).1 ≠ HandlerOutcome.skipped
      ∧ callsProvider (handler getTemplateBody input).2 = false
      ∧ callsAssumeRole (handler getTemplateBody input).2 = false := by
  unfold handler
  rw [hns]
  simp only [Bool.false_eq_true, if_false]
  rw [herr]
  refine ⟨rfl, by simp, rfl, rfl⟩

/-- C6 witness: a concrete failing resolution yields the hard error with no
provider call. -/
theorem template_resolution_failure_witness :
    (handler failingTemplateStore baseInput).1 = HandlerOutcome.templateError "TemplateNotFound"
      ∧ (handler failingTemplateStore baseInput).1 ≠ HandlerOutcome.skipped
      ∧ callsProvider (handler failingTemplateStore baseInput).2 = false
      ∧ callsAssumeRole (handler failingTemplateStore baseInput).2 = false :=
  template_resolution_failure_is_hard_error failingTemplateStore baseInput
    "TemplateNotFound" (by decide) rfl

/-- C8: an under-specified request is deployed rather than excluded. When
`accountId` is absent the pre-check never skips, whatever the ignore
settings of `i`; and when the account matches but the region constraint is
truthy while `region` is absent, the upsert proceeds. -/
theorem underspecified_input_is_not_excluded
    (getTemplateBody : StackTemplateLocation → Except String String)
    (i j : CreateStackInput)
    (hi : i.accountId = none)
    (hj1 : jsTruthy j.ignoreAccountId = true)
    (hj2 : jsStrictEq j.ignoreAccountId j.accountId = true)
    (hj3 : jsTruthy j.ignoreRegion = true)
    (hj4 : j.region = none) :
    (handler getTemplateBody i).1 ≠ HandlerOutcome.skipped
      ∧ (handler getTemplateBody j).1 ≠ HandlerOutcome.skipped := by
  constructor
  · exact handler_not_skipped getTemplateBody i (shouldSkipUpsert_of_no_accountId i hi)
  · obtain ⟨r, hr⟩ := jsTruthy_eq_true j.ignoreRegion hj3
    have hd : jsStrictEq j.ignoreRegion j.region = false := by
      rw [hr, hj4]; rfl
    have hskip : shouldSkipUpsert j = false := by
      rw [shouldSkipUpsert_of_both j hj1 hj3, hj2, hd]; rfl
    exact handler_not_skipped getTemplateBody j hskip

/-- C8 witness: concrete under-specified inputs are not excluded. -/
theorem underspecified_input_witness :
    (handler okTemplateStore
        { baseInput with accountId := none, ignoreAccountId := some "222222222222" }).1
        ≠ HandlerOutcome.skipped
      ∧ (handler okTemplateStore
          { baseInput with
              region := none
              ignoreAccountId := some "222222222222"
              ignoreRegion := some "ca-central-1" }).1 ≠ HandlerOutcome.skipped :=
  underspecified_input_is_not_excluded okTemplateStore _ _
    rfl (by decide) (by decide) (by decide) rfl

/-- The credential source of the submitted request of a run, if any. -/
def submittedCredentialSource (effects : List HandlerEffect) : Option CredentialSource :=
  (submittedRequest effects).map CfnStackRequest.credentialSource

/-- A concrete input whose target account is the account the orchestrator
itself runs in (here taken to be 111111111111). -/
def ownAccountInput : CreateStackInput :=
  { baseInput with accountId := some "111111111111" }

/-- C5 counterexample: the handler has no notion of its own account and
delegates whenever both `accountId` and `assumeRoleName` are truthy
(create.ts, line 81). Taking the orchestrator to run in account
111111111111 and targeting that same account, the run still acquires
delegated credentials and binds the client to them, refuting the clause
that no delegation occurs when the target account equals the orchestrator
account. -/
theorem credential_source_own_account_counterexample :
    ownAccountInput.accountId = some "111111111111"
      ∧ callsAssumeRole (handler okTemplateStore ownAccountInput).2 = true
      ∧ submittedCredentialSource (handler okTemplateStore ownAccountInput).2
          = some (CredentialSource.delegated "111111111111" "ASEA-PipelineRole")
      ∧ submittedCredentialSource (handler okTemplateStore ownAccountInput).2
          ≠ some CredentialSource.ambient := by
  refine ⟨rfl, by decide, by decide, by decide⟩

/-- C5 (amended): on a non-excluded input whose template resolves, the
client is bound to delegated credentials for the given account, role and
region exactly when both `accountId` and `assumeRoleName` are truthy, and
in every other case the ambient identity is used with no delegation call;
the choice depends only on the presence of the two fields, never on a
comparison with the orchestrator account. -/
theorem credential_source_selection
    (getTemplateBody : StackTemplateLocation → Except String String)
    (input : CreateStackInput) (body : String)
    (hok : getTemplateBody input.stackTemplate = Except.ok body)
    (hns : shouldSkipUpsert input = false) :
    ((jsTruthy input.accountId && jsTruthy input.assumeRoleName) = true →
        submittedRequest (handler getTemplateBody input).2
            = some
              { credentialSource :=
                  CredentialSource.delegated (input.accountId.getD "") (input.assumeRoleName.getD "")
                clientRegion := input.region
                stackName := input.stackName
                templateBody := body
                capabilities := input.stackCapabilities
                parameters := input.stackParameters }
          ∧ callsAssumeRole (handler getTemplateBody input).2 = true)
      ∧ ((jsTruthy input.accountId && jsTruthy input.assumeRoleName) = false →
        submittedRequest (handler getTemplateBody input).2
            = some
              { credentialSource := CredentialSource.ambient
                clientRegion := none
                stackName := input.stackName
                templateBody := body
                capabilities := input.stackCapabilities
                parameters := input.stackParameters }
          ∧ callsAssumeRole (handler getTemplateBody input).2 = false) := by
  have hred : handler getTemplateBody input
      = if jsTruthy input.accountId && jsTruthy input.assumeRoleName then
          (HandlerOutcome.completed,
            [HandlerEffect.loadAccountsCall input.parametersTableName,
              HandlerEffect.getTemplateBodyCall input.stackTemplate,
              HandlerEffect.assumeRoleCall (input.accountId.getD "") (input.assumeRoleName.getD ""),
              HandlerEffect.createOrUpdateStackCall
                { credentialSource :=
                    CredentialSource.delegated (input.accountId.getD "") (input.assumeRoleName.getD "")
                  clientRegion := input.region
                  stackName := input.stackName
                  templateBody := body
                  capabilities := input.stackCapabilities
                  parameters := input.stackParameters }])
        else
          (HandlerOutcome.completed,
            [HandlerEffect.loadAccountsCall input.parametersTableName,
              HandlerEffect.getTemplateBodyCall input.stackTemplate,
              HandlerEffect.createOrUpdateStackCall
                { credentialSource := CredentialSource.ambient
                  clientRegion := none
                  stackName := input.stackName
                  templateBody := body
                  capabilities := input.stackCapabilities
                  parameters := input.stackParameters }]) := by
    unfold handler
    rw [hns]
    simp only [Bool.false_eq_true, if_false]
    rw [hok]
  constructor
  · intro hc
    rw [hred, if_pos hc]
    exact ⟨rfl, rfl⟩
  · intro hc
    rw [hred, if_neg (by simp [hc])]
    exact ⟨rfl, rfl⟩

/-- C5 witness: the amended selection law evaluated on a concrete delegated
input. -/
theorem credential_source_selection_witness :
    submittedRequest (handler okTemplateStore baseInput).2
        = some
          { credentialSource := CredentialSource.delegated "222222222222" "ASEA-PipelineRole"
            clientRegion := some "ca-central-1"
            stackName := "ASEA-SampleStack"
            templateBody := "template-body"
            capabilities := ["CAPABILITY_NAMED_IAM"]
            parameters := [("Parameter", "Value")] }
      ∧ callsAssumeRole (handler okTemplateStore baseInput).2 = true :=
  (credential_source_selection okTemplateStore baseInput "template-body" rfl (by decide)).1
    (by decide)

/-! ## Shared-target resolution and the EBS default-encryption key loop
(`src/deployments/cdk/src/deployments/defaults/step-1.ts`). -/

/-- First-occurrence deduplication with an accumulator of already seen
elements; `Array.from(new Set(l))` keeps the first occurrence of each
element in insertion order. -/
def jsSetDedupAux : List String → List String → List String
  | [], _ => []
  | a :: rest, seen =>
      if a ∈ seen then jsSetDedupAux rest seen
      else a :: jsSetDedupAux rest (a :: seen)

/-- `Array.from(new Set(l))`. -/
def jsSetDedup (l : List String) : List String := jsSetDedupAux l []

lemma mem_jsSetDedupAux (l : List String) (seen : List String) (x : String) :
    x ∈ jsSetDedupAux l seen ↔ (x ∈ l ∧ x ∉ seen) := by
  induction l generalizing seen with
  | nil => simp [jsSetDedupAux]
  | cons a rest ih =>
    by_cases ha : a ∈ seen
    · simp only [jsSetDedupAux, if_pos ha, ih, List.mem_cons]
      constructor
      · rintro ⟨hx, hns⟩
        exact ⟨Or.inr hx, hns⟩
      · rintro ⟨hx, hns⟩
        rcases hx with h | h
        · subst h; exact absurd ha hns
        · exact ⟨h, hns⟩
    · simp only [jsSetDedupAux, if_neg ha, List.mem_cons, ih]
      constructor
      · rintro (h | ⟨hx, hns⟩)
        · subst h; exact ⟨Or.inl rfl, ha⟩
        · refine ⟨Or.inr hx, fun hxs => hns (Or.inr hxs)⟩
      · rintro ⟨hx, hns⟩
        by_cases hxa : x = a
        · exact Or.inl hxa
        · rcases hx with h | h
          · exact absurd h hxa
          · refine Or.inr ⟨h, fun hmem => ?_⟩
            rcases hmem with h2 | h2
            · exact hxa h2
            · exact hns h2

lemma nodup_jsSetDedupAux (l : List String) (seen : List String) :
    (jsSetDedupAux l seen).Nodup := by
  induction l generalizing seen with
  | nil => simp [jsSetDedupAux]
  | cons a rest ih =>
    by_cases ha : a ∈ seen
    · simpa only [jsSetDedupAux, if_pos ha] using ih seen
    · simp only [jsSetDedupAux, if_neg ha, List.nodup_cons]
      refine ⟨fun hmem => ?_, ih (a :: seen)⟩
      rw [mem_jsSetDedupAux] at hmem
      exact hmem.2 (List.mem_cons_self a seen)

/-- The account keys a shared VPC resolves to (step-1.ts, lines 373-375):
the keys the sharing predicate reports, with the owning account key pushed
at the end, deduplicated by a JavaScript `Set`. -/
def resolveVpcTargetAccounts (vpcSharedTo : List String) (accountKey : String) : List String :=
  jsSetDedup (vpcSharedTo ++ [accountKey])

lemma mem_resolveVpcTargetAccounts (sharedTo : List String) (accountKey x : String) :
    x ∈ resolveVpcTargetAccounts sharedTo accountKey ↔ (x ∈ sharedTo ∨ x = accountKey) := by
  simp [resolveVpcTargetAccounts, jsSetDedup, mem_jsSetDedupAux]

/-- One entry of `config.getVpcConfigs()` as the EBS loop consumes it: the
owning account key, the VPC region, and the account keys the external
sharing predicate `getVpcSharedAccountKeys` reports for this VPC. -/
structure VpcConfigEntry where
  accountKey : String
  region : String
  sharedTo : List String
deriving DecidableEq

/-- The state threaded through `createDefaultEbsEncryptionKey`: the
`accountEbsEncryptionKeys` map from (account key, region) to the created
key, a counter generating distinct key identities, and the log of all key
creations in order. -/
structure EbsKeyState where
  accountEbsEncryptionKeys : List ((String × String) × Nat)
  nextKeyId : Nat
  createdKeys : List ((String × String) × Nat)
deriving DecidableEq

def initialEbsKeyState : EbsKeyState :=
  { accountEbsEncryptionKeys := [], nextKeyId := 0, createdKeys := [] }

/-- The lookup `accountEbsEncryptionKeys[localAccountKey]?.[region]`. -/
def ebsKeyLookup (m : List ((String × String) × Nat)) (accountKey region : String) : Option Nat :=
  (m.find? fun e => e.1.1 == accountKey && e.1.2 == region).map (·.2)

/-- The body of the inner loop of `createDefaultEbsEncryptionKey`
(step-1.ts, lines 376-420) for one resolved account key: skip when the map
already records a key for the (account, region) target; skip with a warning
when no account stack can be obtained; otherwise create a fresh key, record
it in the map and log the creation. -/
def processEbsTarget (hasAccountStack : String → String → Bool) (region : String)
    (st : EbsKeyState) (localAccountKey : String) : EbsKeyState :=
  if (ebsKeyLookup st.accountEbsEncryptionKeys localAccountKey region).isSome then st
  else if hasAccountStack localAccountKey region then
    { accountEbsEncryptionKeys :=
        ((localAccountKey, region), st.nextKeyId) :: st.accountEbsEncryptionKeys
      nextKeyId := st.nextKeyId + 1
      createdKeys := st.createdKeys ++ [((localAccountKey, region), st.nextKeyId)] }
  else st

/-- One iteration of the outer loop of `createDefaultEbsEncryptionKey`
(step-1.ts, lines 371-376): resolve the shared target accounts of the VPC
and process each in order. -/
def processVpcConfig (hasAccountStack : String → String → Bool)
    (st : EbsKeyState) (entry : VpcConfigEntry) : EbsKeyState :=
  (resolveVpcTargetAccounts entry.sharedTo entry.accountKey).foldl
    (processEbsTarget hasAccountStack entry.region) st

/-- `createDefaultEbsEncryptionKey` (step-1.ts, lines 366-423), with the
lazily created account stacks abstracted by the availability function
`hasAccountStack`. -/
def createDefaultEbsEncryptionKey (hasAccountStack : String → String → Bool)
    (vpcConfigs : List VpcConfigEntry) : EbsKeyState :=
  vpcConfigs.foldl (processVpcConfig hasAccountStack) initialEbsKeyState

lemma ebsKeyLookup_cons (x : (String × String) × Nat) (m : List ((String × String) × Nat))
    (a r : String) :
    ebsKeyLookup (x :: m) a r
      = if (x.1.1 == a && x.1.2 == r) = true then some x.2 else ebsKeyLookup m a r := by
  unfold ebsKeyLookup
  cases hp : (x.1.1 == a && x.1.2 == r) with
  | true => simp [List.find?, hp]
  | false => simp [List.find?, hp]

/-- The dedup invariant of the EBS loop: the run-scoped map records exactly
the targets whose creation was logged, and no target is logged twice. -/
def EbsKeyInvariant (st : EbsKeyState) : Prop :=
  (∀ a r, (ebsKeyLookup st.accountEbsEncryptionKeys a r).isSome = true
      ↔ (a, r) ∈ st.createdKeys.map Prod.fst)
    ∧ (st.createdKeys.map Prod.fst).Nodup

lemma ebsKeyInvariant_initial : EbsKeyInvariant initialEbsKeyState := by
  constructor
  · intro a r; simp [ebsKeyLookup, initialEbsKeyState]
  · simp [initialEbsKeyState]

lemma ebsKeyInvariant_processEbsTarget (hasAccountStack : String → String → Bool)
    (region : String) (st : EbsKeyState) (a : String)
    (hinv : EbsKeyInvariant st) :
    EbsKeyInvariant (processEbsTarget hasAccountStack region st a) := by
  unfold processEbsTarget
  by_cases h1 : (ebsKeyLookup st.accountEbsEncryptionKeys a region).isSome = true
  · rw [if_pos h1]; exact hinv
  · rw [if_neg h1]
    by_cases h2 : hasAccountStack a region = true
    · rw [if_pos h2]
      obtain ⟨hiff, hnd⟩ := hinv
      have hnotmem : (a, region) ∉ st.createdKeys.map Prod.fst := fun hm => h1 ((hiff a region).mpr hm)
      constructor
      · intro a2 r2
        dsimp only
        rw [ebsKeyLookup_cons]
        dsimp only
        by_cases hmatch : (a == a2 && region == r2) = true
        · rw [if_pos hmatch]
          have ha2 : a = a2 := by
            have h := ((Bool.and_eq_true _ _).mp hmatch).1
            exact beq_iff_eq.mp h
          have hr2 : region = r2 := by
            have h := ((Bool.and_eq_true _ _).mp hmatch).2
            exact beq_iff_eq.mp h
          subst ha2; subst hr2
          simp
        · rw [if_neg hmatch]
          rw [hiff a2 r2]
          have hne : ((a2, r2) : String × String) ≠ (a, region) := by
            intro he
            apply hmatch
            rw [Prod.mk.injEq] at he
            simp [he.1, he.2]
          simp [hne]
      · dsimp only
        simp only [List.map_append, List.map_cons, List.map_nil]
        rw [List.nodup_append]
        refine ⟨hnd, List.nodup_singleton _, ?_⟩
        intro p hp hq
        rw [List.mem_singleton] at hq
        subst hq
        exact hnotmem hp
    · rw [if_neg h2]; exact hinv

lemma ebsKeyInvariant_foldTargets (hasAccountStack : String → String → Bool)
    (region : String) (l : List String) (st : EbsKeyState)
    (hinv : EbsKeyInvariant st) :
    EbsKeyInvariant (l.foldl (processEbsTarget hasAccountStack region) st) := by
  induction l generalizing st with
  | nil => exact hinv
  | cons a rest ih =>
    exact ih _ (ebsKeyInvariant_processEbsTarget hasAccountStack region st a hinv)

lemma ebsKeyInvariant_final (hasAccountStack : String → String → Bool)
    (vpcConfigs : List VpcConfigEntry) :
    EbsKeyInvariant (createDefaultEbsEncryptionKey hasAccountStack vpcConfigs) := by
  unfold createDefaultEbsEncryptionKey
  have h : ∀ st, EbsKeyInvariant st →
      EbsKeyInvariant (vpcConfigs.foldl (processVpcConfig hasAccountStack) st) := by
    induction vpcConfigs with
    | nil => exact fun st h => h
    | cons c rest ih =>
      intro st hst
      exact ih _ (ebsKeyInvariant_foldTargets hasAccountStack c.region _ st hst)
  exact h initialEbsKeyState ebsKeyInvariant_initial

lemma ebsKeyLookup_mono_processEbsTarget (hasAccountStack : String → String → Bool)
    (region : String) (st : EbsKeyState) (b a r : String)
    (hs : (ebsKeyLookup st.accountEbsEncryptionKeys a r).isSome = true) :
    (ebsKeyLookup (processEbsTarget hasAccountStack region st b).accountEbsEncryptionKeys a r).isSome
      = true := by
  unfold processEbsTarget
  by_cases h1 : (ebsKeyLookup st.accountEbsEncryptionKeys b region).isSome = true
  · rw [if_pos h1]; exact hs
  · rw [if_neg h1]
    by_cases h2 : hasAccountStack b region = true
    · rw [if_pos h2]
      dsimp only
      rw [ebsKeyLookup_cons]
      by_cases hmatch : (((b, region), st.nextKeyId) : (String × String) × Nat).1.1 == a
          && (((b, region), st.nextKeyId) : (String × String) × Nat).1.2 == r
      · rw [if_pos hmatch]; rfl
      · rw [if_neg hmatch]; exact hs
    · rw [if_neg h2]; exact hs

lemma ebsKeyLookup_mono_foldTargets (hasAccountStack : String → String → Bool)
    (region : String) (l : List String) (st : EbsKeyState) (a r : String)
    (hs : (ebsKeyLookup st.accountEbsEncryptionKeys a r).isSome = true) :
    (ebsKeyLookup ((l.foldl (processEbsTarget hasAccountStack region) st)).accountEbsEncryptionKeys
        a r).isSome = true := by
  induction l generalizing st with
  | nil => exact hs
  | cons b rest ih =>
    exact ih _ (ebsKeyLookup_mono_processEbsTarget hasAccountStack region st b a r hs)

lemma ebsKeyLookup_self_processEbsTarget (hasAccountStack : String → String → Bool)
    (region : String) (st : EbsKeyState) (a : String)
    (hstack : hasAccountStack a region = true) :
    (ebsKeyLookup (processEbsTarget hasAccountStack region st a).accountEbsEncryptionKeys
        a region).isSome = true := by
  unfold processEbsTarget
  by_cases h1 : (ebsKeyLookup st.accountEbsEncryptionKeys a region).isSome = true
  · rw [if_pos h1]; exact h1
  · rw [if_neg h1, if_pos hstack]
    dsimp only
    rw [ebsKeyLookup_cons]
    simp

lemma ebsKeyLookup_of_mem_foldTargets (hasAccountStack : String → String → Bool)
    (region : String) (l : List String) (st : EbsKeyState) (a : String)
    (ha : a ∈ l) (hstack : hasAccountStack a region = true) :
    (ebsKeyLookup ((l.foldl (processEbsTarget hasAccountStack region) st)).accountEbsEncryptionKeys
        a region).isSome = true := by
  induction l generalizing st with
  | nil => cases ha
  | cons b rest ih =>
    rcases List.mem_cons.mp ha with hab | harest
    · subst hab
      exact ebsKeyLookup_mono_foldTargets hasAccountStack region rest _ a region
        (ebsKeyLookup_self_processEbsTarget hasAccountStack region st a hstack)
    · exact ih _ harest

lemma ebsKeyLookup_mono_processVpcConfig (hasAccountStack : String → String → Bool)
    (st : EbsKeyState) (entry : VpcConfigEntry) (a r : String)
    (hs : (ebsKeyLookup st.accountEbsEncryptionKeys a r).isSome = true) :
    (ebsKeyLookup (processVpcConfig hasAccountStack st entry).accountEbsEncryptionKeys a r).isSome
      = true :=
  ebsKeyLookup_mono_foldTargets hasAccountStack entry.region _ st a r hs

lemma ebsKeyLookup_mono_foldConfigs (hasAccountStack : String → String → Bool)
    (l : List VpcConfigEntry) (a r : String) :
    ∀ st : EbsKeyState, (ebsKeyLookup st.accountEbsEncryptionKeys a r).isSome = true →
      (ebsKeyLookup
          ((l.foldl (processVpcConfig hasAccountStack) st)).accountEbsEncryptionKeys a r).isSome
        = true := by
  induction l with
  | nil => exact fun st h => h
  | cons d rest ih =>
    intro st h
    exact ih _ (ebsKeyLookup_mono_processVpcConfig hasAccountStack st d a r h)

lemma ebsKeyLookup_of_mem_foldConfigs (hasAccountStack : String → String → Bool)
    (l : List VpcConfigEntry) (entry : VpcConfigEntry) (a : String)
    (ha : a ∈ resolveVpcTargetAccounts entry.sharedTo entry.accountKey)
    (hstack : hasAccountStack a entry.region = true) :
    ∀ st : EbsKeyState, entry ∈ l →
      (ebsKeyLookup
          ((l.foldl (processVpcConfig hasAccountStack) st)).accountEbsEncryptionKeys
          a entry.region).isSome = true := by
  induction l with
  | nil => intro st h; cases h
  | cons c rest ih =>
    intro st hmem
    rcases List.mem_cons.mp hmem with hec | herest
    · subst hec
      exact ebsKeyLookup_mono_foldConfigs hasAccountStack rest a entry.region _
        (ebsKeyLookup_of_mem_foldTargets hasAccountStack entry.region _ st a ha hstack)
    · exact ih _ herest

lemma ebsKeyLookup_of_mem_createDefault (hasAccountStack : String → String → Bool)
    (vpcConfigs : List VpcConfigEntry) (entry : VpcConfigEntry) (a : String)
    (hentry : entry ∈ vpcConfigs)
    (ha : a ∈ resolveVpcTargetAccounts entry.sharedTo entry.accountKey)
    (hstack : hasAccountStack a entry.region = true) :
    (ebsKeyLookup
        (createDefaultEbsEncryptionKey hasAccountStack vpcConfigs).accountEbsEncryptionKeys
        a entry.region).isSome = true :=
  ebsKeyLookup_of_mem_foldConfigs hasAccountStack vpcConfigs entry a ha hstack
    initialEbsKeyState hentry

/-- `blockS3PublicAccess` (step-1.ts, lines 53-71), with the account stacks
abstracted by an availability function: for each account configuration it
creates an `S3PublicAccessBlock` whose block setting is the negation of
`enable-s3-public-access`, warning and continuing when no account stack can
be obtained. The result lists the blocks actually created, in order. -/
def blockS3PublicAccess (hasAccountStack : String → Bool)
    (accountConfigs : List (String × Bool)) : List (String × Bool) :=
  accountConfigs.filterMap fun cfg =>
    if hasAccountStack cfg.1 then some (cfg.1, !cfg.2) else none

/-- C1: within one run, at most one EBS default-encryption key is allocated
per (accountKey, region) target. The creation log of
`createDefaultEbsEncryptionKey` never repeats a target, every created key is
recorded in the `accountEbsEncryptionKeys` map (and conversely only created
targets are recorded), and a request for a target already recorded leaves
the state untouched — however many VPC configurations or sharing edges reach
that target. -/
theorem ebs_default_encryption_key_at_most_once
    (hasAccountStack : String → String → Bool) (vpcConfigs : List VpcConfigEntry) :
    ((createDefaultEbsEncryptionKey hasAccountStack vpcConfigs).createdKeys.map Prod.fst).Nodup
      ∧ (∀ a r,
          (ebsKeyLookup
              (createDefaultEbsEncryptionKey hasAccountStack vpcConfigs).accountEbsEncryptionKeys
              a r).isSome = true
            ↔ (a, r) ∈ (createDefaultEbsEncryptionKey hasAccountStack vpcConfigs).createdKeys.map
                Prod.fst)
      ∧ (∀ (st : EbsKeyState) (a r : String),
          (ebsKeyLookup st.accountEbsEncryptionKeys a r).isSome = true →
          processEbsTarget hasAccountStack r st a = st) := by
  obtain ⟨hiff, hnd⟩ := ebsKeyInvariant_final hasAccountStack vpcConfigs
  refine ⟨hnd, hiff, ?_⟩
  intro st a r hs
  unfold processEbsTarget
  rw [if_pos hs]

/-- C3: resolving the targets of a shared VPC unions the owning account
with every account the sharing predicate reports and deduplicates by
account key. -/
theorem shared_vpc_target_resolution (sharedTo : List String) (accountKey k : String)
    (hk : k ∈ sharedTo) :
    accountKey ∈ resolveVpcTargetAccounts sharedTo accountKey
      ∧ k ∈ resolveVpcTargetAccounts sharedTo accountKey
      ∧ (resolveVpcTargetAccounts sharedTo accountKey).Nodup := by
  refine ⟨?_, ?_, nodup_jsSetDedupAux _ _⟩
  · exact (mem_resolveVpcTargetAccounts sharedTo accountKey accountKey).mpr (Or.inr rfl)
  · exact (mem_resolveVpcTargetAccounts sharedTo accountKey k).mpr (Or.inl hk)

/-- C3 witness: a sharing predicate reporting the same account twice, and
the owner itself, still yields a duplicate-free resolution. -/
theorem shared_vpc_target_resolution_witness :
    "ops" ∈ resolveVpcTargetAccounts ["shared", "ops", "shared"] "ops"
      ∧ "shared" ∈ resolveVpcTargetAccounts ["shared", "ops", "shared"] "ops"
      ∧ (resolveVpcTargetAccounts ["shared", "ops", "shared"] "ops").Nodup :=
  shared_vpc_target_resolution ["shared", "ops", "shared"] "ops" "shared" (by decide)

/-- C7: a failure scoped to one account never aborts the siblings. Whatever
the stack availability elsewhere, an account configuration whose stack can
be obtained still receives its public-access block in `blockS3PublicAccess`,
and a resolved EBS target whose stack can be obtained still receives its
default-encryption key in `createDefaultEbsEncryptionKey`. -/
theorem single_account_failure_does_not_abort_siblings
    (hasAccountStack1 : String → Bool) (accountConfigs : List (String × Bool))
    (k : String) (enablePublicAccess : Bool)
    (hk : (k, enablePublicAccess) ∈ accountConfigs)
    (hs1 : hasAccountStack1 k = true)
    (hasAccountStack2 : String → String → Bool) (vpcConfigs : List VpcConfigEntry)
    (entry : VpcConfigEntry) (a : String)
    (hentry : entry ∈ vpcConfigs)
    (ha : a ∈ entry.sharedTo ∨ a = entry.accountKey)
    (hs2 : hasAccountStack2 a entry.region = true) :
    (k, !enablePublicAccess) ∈ blockS3PublicAccess hasAccountStack1 accountConfigs
      ∧ (a, entry.region)
          ∈ (createDefaultEbsEncryptionKey hasAccountStack2 vpcConfigs).createdKeys.map
              Prod.fst := by
  constructor
  · refine List.mem_filterMap.mpr ⟨(k, enablePublicAccess), hk, ?_⟩
    simp [hs1]
  · have hres : a ∈ resolveVpcTargetAccounts entry.sharedTo entry.accountKey :=
      (mem_resolveVpcTargetAccounts entry.sharedTo entry.accountKey a).mpr ha
    have hsome := ebsKeyLookup_of_mem_createDefault hasAccountStack2 vpcConfigs entry a
      hentry hres hs2
    exact ((ebsKeyInvariant_final hasAccountStack2 vpcConfigs).1 a entry.region).mp hsome

/-- A stack-availability function under which account `missing` has no
stack, used to evaluate the warn-and-continue theorems. -/
def sampleAccountStackLookup : String → Bool := fun key => key != "missing"

/-- The regional variant of `sampleAccountStackLookup`. -/
def sampleRegionalStackLookup : String → String → Bool := fun key _ => key != "missing"

/-- A VPC configuration entry shared to a missing account and to `ops`. -/
def sampleVpcEntry : VpcConfigEntry :=
  { accountKey := "shared", region := "ca-central-1", sharedTo := ["missing", "ops", "ops"] }

/-- C7 witness: with the `missing` account lacking a stack, the sibling
accounts `security` and `ops` still receive their resources. -/
theorem single_account_failure_witness :
    ("security", !true)
        ∈ blockS3PublicAccess sampleAccountStackLookup
            [("ops", false), ("missing", true), ("security", true)]
      ∧ ("ops", "ca-central-1")
          ∈ (createDefaultEbsEncryptionKey sampleRegionalStackLookup
                [sampleVpcEntry]).createdKeys.map Prod.fst :=
  single_account_failure_does_not_abort_siblings sampleAccountStackLookup
    [("ops", false), ("missing", true), ("security", true)] "security" true
    (by decide) (by decide)
    sampleRegionalStackLookup [sampleVpcEntry] sampleVpcEntry "ops"
    (by decide) (by decide) (by decide)

/-! ## The shared backing Lambda of `Ec2AcceptVpcEndpointConnection`
(custom-resource construct, `lambdaFunction` getter). -/

/-- The `resourceType` constant of the construct. -/
def vpcEndpointResourceType : String := "Custom::ModifyVpcEndpointServicePermissions"

/-- The fixed stack-level construct name of the backing Lambda function. -/
def vpcEndpointLambdaName : String := vpcEndpointResourceType ++ "Lambda"

/-- A CDK stack as the getter sees it: named stack-level children (each
identified by a node id) and a counter supplying fresh node identities. -/
structure CdkStack where
  children : List (String × Nat)
  nextNodeId : Nat
deriving DecidableEq

/-- `stack.node.tryFindChild(constructName)`. -/
def tryFindChild (stack : CdkStack) (name : String) : Option Nat :=
  (stack.children.find? fun c => c.1 == name).map (·.2)

/-- The `lambdaFunction` getter (part_000, lines 50-68): return the
existing stack child with the fixed construct name when one exists, and
otherwise create the Lambda function as a new stack child. -/
def lambdaFunction (stack : CdkStack) : CdkStack × Nat :=
  match tryFindChild stack vpcEndpointLambdaName with
  | some fn => (stack, fn)
  | none =>
      ({ children := stack.children ++ [(vpcEndpointLambdaName, stack.nextNodeId)]
         nextNodeId := stack.nextNodeId + 1 },
        stack.nextNodeId)

/-- Constructing one `Ec2AcceptVpcEndpointConnection` consults the getter
for its service token (part_000, lines 41-47); only its effect on the
stack-level children matters here. -/
def constructEndpointConnection (stack : CdkStack) : CdkStack :=
  (lambdaFunction stack).1

/-- Constructing `n` such custom resources in the same stack. -/
def constructEndpointConnections : Nat → CdkStack → CdkStack
  | 0, stack => stack
  | n + 1, stack => constructEndpointConnections n (constructEndpointConnection stack)

/-- How many stack children carry the fixed Lambda construct name. -/
def lambdaFunctionCount (stack : CdkStack) : Nat :=
  stack.children.countP fun c => c.1 == vpcEndpointLambdaName

lemma find?_append_of_none {α : Type} (p : α → Bool) (l1 l2 : List α)
    (h : l1.find? p = none) : (l1 ++ l2).find? p = l2.find? p := by
  induction l1 with
  | nil => rfl
  | cons a rest ih =>
    rw [List.cons_append]
    cases hpa : p a with
    | true => simp [List.find?, hpa] at h
    | false =>
      simp only [List.find?, hpa] at h ⊢
      exact ih h

lemma lambdaFunction_of_found (stack : CdkStack) (fn : Nat)
    (h : tryFindChild stack vpcEndpointLambdaName = some fn) :
    lambdaFunction stack = (stack, fn) := by
  unfold lambdaFunction; rw [h]

lemma tryFindChild_after_create (stack : CdkStack)
    (h : tryFindChild stack vpcEndpointLambdaName = none) :
    tryFindChild (lambdaFunction stack).1 vpcEndpointLambdaName
      = some (lambdaFunction stack).2 := by
  have hf : stack.children.find? (fun c => c.1 == vpcEndpointLambdaName) = none := by
    unfold tryFindChild at h
    cases hx : stack.children.find? fun c => c.1 == vpcEndpointLambdaName with
    | none => rfl
    | some c => rw [hx] at h; simp at h
  unfold lambdaFunction
  rw [h]
  dsimp only
  unfold tryFindChild
  dsimp only
  rw [find?_append_of_none _ _ _ hf]
  simp [List.find?]

lemma lambdaFunctionCount_construct (stack : CdkStack)
    (h : lambdaFunctionCount stack ≤ 1) :
    lambdaFunctionCount (constructEndpointConnection stack) ≤ 1 := by
  unfold constructEndpointConnection lambdaFunction
  cases hfind : tryFindChild stack vpcEndpointLambdaName with
  | some fn => exact h
  | none =>
    have hf : stack.children.find? (fun c => c.1 == vpcEndpointLambdaName) = none := by
      unfold tryFindChild at hfind
      cases hx : stack.children.find? fun c => c.1 == vpcEndpointLambdaName with
      | none => rfl
      | some c => rw [hx] at hfind; simp at hfind
    have h0 : stack.children.countP (fun c => c.1 == vpcEndpointLambdaName) = 0 := by
      rw [List.countP_eq_zero]
      intro c hc
      have := List.find?_eq_none.mp hf c hc
      simpa using this
    dsimp only
    unfold lambdaFunctionCount
    dsimp only
    rw [List.countP_append, h0]
    simp [List.countP_cons]

/-- C9: within one stack all `Ec2AcceptVpcEndpointConnection` constructs
share a single backing Lambda. The getter returns the existing stack child
with the fixed construct name when one exists, a second call after a
creation returns the created function without creating again, and however
many such custom resources are constructed, at most one Lambda child exists
in the stack. -/
theorem vpc_endpoint_lambda_shared_per_stack (stack : CdkStack) (n : Nat)
    (h : lambdaFunctionCount stack ≤ 1) :
    (∀ fn, tryFindChild stack vpcEndpointLambdaName = some fn →
        lambdaFunction stack = (stack, fn))
      ∧ lambdaFunction (lambdaFunction stack).1
          = ((lambdaFunction stack).1, (lambdaFunction stack).2)
      ∧ lambdaFunctionCount (constructEndpointConnections n stack) ≤ 1 := by
  refine ⟨?_, ?_, ?_⟩
  · intro fn hfn
    exact lambdaFunction_of_found stack fn hfn
  · cases hfind : tryFindChild stack vpcEndpointLambdaName with
    | some fn =>
      have hid := lambdaFunction_of_found stack fn hfind
      rw [hid]
      exact lambdaFunction_of_found stack fn hfind
    | none =>
      exact lambdaFunction_of_found _ _ (tryFindChild_after_create stack hfind)
  · induction n generalizing stack with
    | zero => exact h
    | succ m ih =>
      exact ih (constructEndpointConnection stack) (lambdaFunctionCount_construct stack h)

/-- C9 witness: three constructions in an initially empty stack leave
exactly at most one Lambda child, and the getter behaves as stated. -/
theorem vpc_endpoint_lambda_shared_witness :
    (∀ fn, tryFindChild { children := [], nextNodeId := 0 } vpcEndpointLambdaName = some fn →
        lambdaFunction { children := [], nextNodeId := 0 }
          = ({ children := [], nextNodeId := 0 }, fn))
      ∧ lambdaFunction (lambdaFunction { children := [], nextNodeId := 0 }).1
          = ((lambdaFunction { children := [], nextNodeId := 0 }).1,
              (lambdaFunction { children := [], nextNodeId := 0 }).2)
      ∧ lambdaFunctionCount
          (constructEndpointConnections 3 { children := [], nextNodeId := 0 }) ≤ 1 :=
  vpc_endpoint_lambda_shared_per_stack { children := [], nextNodeId := 0 } 3 (by decide)

/-! ## The metadata-service read-only policy statements
(`src/deployments/cdk/src/deployments/metadata-collection/index.ts`,
which holds two definitions of `createMetadataService`; the first guards on
`metadataReadOnlyRoles.length > 0`, the second, older one on the array
object itself). Only the policy statements attached to the metadata
encryption key and bucket are modelled. -/

/-- One IAM role of the configuration, with its
`meta-data-read-only-access` flag. -/
structure IamRoleConfig where
  role : String
  metaDataReadOnlyAccess : Bool
deriving DecidableEq

/-- One entry of `config.getIamConfigs()`: the account key and the
optional role list of its IAM configuration. -/
structure IamConfigEntry where
  accountKey : String
  roles : Option (List IamRoleConfig)
deriving DecidableEq

/-- `getAccountId` of the external accounts module: the id of the account
with the given key, if any. -/
def getAccountId (accounts : List (String × String)) (accountKey : String) : Option String :=
  (accounts.find? fun acc => acc.1 == accountKey).map (·.2)

/-- Interpolation of a possibly undefined value into a JavaScript template
literal: `undefined` renders as the string `undefined`. -/
def jsShow : Option String → String
  | some s => s
  | none => "undefined"

/-- A principal of a policy statement, as far as the metadata statements
use them. -/
inductive Principal where
  | anyAccount
  | arnPrincipal (arn : String)
deriving DecidableEq

/-- A policy statement: its actions, principals, whether it carries the
organisation/ARN condition block, and whether it is a deny statement. -/
structure PolicyStatement where
  actions : List String
  principals : List Principal
  hasOrgCondition : Bool
  isDeny : Bool
deriving DecidableEq

/-- The `metadataReadOnlyRoles` collection loop (index.ts, lines 63-72 and
identically lines 304-313): one `ArnPrincipal` for every configured role
with `meta-data-read-only-access`. -/
def metadataReadOnlyRoles (accounts : List (String × String)) :
    List IamConfigEntry → List Principal
  | [] => []
  | cfg :: rest =>
      ((cfg.roles.getD []).filterMap fun role =>
          if role.metaDataReadOnlyAccess then
            some (Principal.arnPrincipal
              ("arn:aws:iam::" ++ jsShow (getAccountId accounts cfg.accountKey)
                ++ ":role/" ++ role.role))
          else none)
        ++ metadataReadOnlyRoles accounts rest

/-- The read-only statement added to the metadata encryption key (index.ts,
lines 75-81 and 316-322). -/
def metadataReadOnlyKeyStatement (roles : List Principal) : PolicyStatement :=
  { actions := ["kms:Decrypt", "kms:DescribeKey", "kms:GenerateDataKey"]
    principals := roles
    hasOrgCondition := false
    isDeny := false }

/-- The read-only statement added to the metadata bucket (index.ts, lines
82-88 and 324-330). -/
def metadataReadOnlyBucketStatement (roles : List Principal) : PolicyStatement :=
  { actions := ["s3:GetObject", "s3:ListBucket"]
    principals := roles
    hasOrgCondition := false
    isDeny := false }

/-- The resource-policy statements of the metadata encryption key in the
first definition (index.ts, lines 74-105): the read-only statement exactly
when the collected role list is non-empty, then the organisation-wide
decrypt statement. -/
def metadataKeyPolicy (roles : List Principal) : List PolicyStatement :=
  (if roles.length > 0 then [metadataReadOnlyKeyStatement roles] else [])
    ++ [{ actions := ["kms:Decrypt", "kms:GenerateDataKey"]
          principals := [Principal.anyAccount]
          hasOrgCondition := true
          isDeny := false }]

/-- The resource-policy statements of the metadata bucket in the first
definition (index.ts, lines 74-137). -/
def metadataBucketPolicy (roles : List Principal) : List PolicyStatement :=
  (if roles.length > 0 then [metadataReadOnlyBucketStatement roles] else [])
    ++ [{ actions := ["s3:Get*", "s3:List*"]
          principals := [Principal.anyAccount]
          hasOrgCondition := true
          isDeny := false },
        { actions := ["s3:*"]
          principals := [Principal.anyAccount]
          hasOrgCondition := false
          isDeny := true }]

/-- The first `createMetadataService` definition (index.ts, lines 27-248),
restricted to the key and bucket policy statements it attaches. -/
def createMetadataService (accounts : List (String × String))
    (iamConfigs : List IamConfigEntry) : List PolicyStatement × List PolicyStatement :=
  (metadataKeyPolicy (metadataReadOnlyRoles accounts iamConfigs),
    metadataBucketPolicy (metadataReadOnlyRoles accounts iamConfigs))

/-- JavaScript truthiness of an array value: an array object is truthy even
when it is empty, which is what the guard of the second definition tests
(index.ts, line 315). -/
def jsArrayTruthy (roles : List Principal) : Bool := true

/-- The key policy of the second, older `createMetadataService` definition
(index.ts, lines 314-347): the guard tests the array object, so the
read-only statement is always attached. -/
def metadataKeyPolicyV2 (roles : List Principal) : List PolicyStatement :=
  (if jsArrayTruthy roles then [metadataReadOnlyKeyStatement roles] else [])
    ++ [{ actions := ["kms:Decrypt"]
          principals := [Principal.anyAccount]
          hasOrgCondition := true
          isDeny := false }]

/-- The bucket policy of the second, older `createMetadataService`
definition (index.ts, lines 314-379). -/
def metadataBucketPolicyV2 (roles : List Principal) : List PolicyStatement :=
  (if jsArrayTruthy roles then [metadataReadOnlyBucketStatement roles] else [])
    ++ [{ actions := ["s3:Get*", "s3:List*"]
          principals := [Principal.anyAccount]
          hasOrgCondition := true
          isDeny := false },
        { actions := ["s3:*"]
          principals := [Principal.anyAccount]
          hasOrgCondition := false
          isDeny := true }]

/-- The second, older `createMetadataService` definition (index.ts, lines
274-443), restricted to the key and bucket policy statements. -/
def createMetadataServiceV2 (accounts : List (String × String))
    (iamConfigs : List IamConfigEntry) : List PolicyStatement × List PolicyStatement :=
  (metadataKeyPolicyV2 (metadataReadOnlyRoles accounts iamConfigs),
    metadataBucketPolicyV2 (metadataReadOnlyRoles accounts iamConfigs))

lemma metadataReadOnlyRoles_eq_nil_iff (accounts : List (String × String))
    (iamConfigs : List IamConfigEntry) :
    metadataReadOnlyRoles accounts iamConfigs = []
      ↔ ∀ cfg ∈ iamConfigs, ∀ role ∈ cfg.roles.getD [],
          role.metaDataReadOnlyAccess = false := by
  induction iamConfigs with
  | nil => simp [metadataReadOnlyRoles]
  | cons cfg rest ih =>
    simp only [metadataReadOnlyRoles, List.append_eq_nil, ih, List.mem_cons]
    constructor
    · rintro ⟨hblock, hrest⟩ c hc role hrole
      rcases hc with rfl | hc
      · cases hfl : role.metaDataReadOnlyAccess with
        | false => rfl
        | true =>
          have hnone := List.filterMap_eq_nil_iff.mp hblock role hrole
          simp [hfl] at hnone
      · exact hrest c hc role hrole
    · intro hall
      constructor
      · rw [List.filterMap_eq_nil_iff]
        intro role hrole
        simp [hall cfg (Or.inl rfl) role hrole]
      · exact fun c hc role hrole => hall c (Or.inr hc) role hrole

lemma metadataReadOnlyRoles_ne_nil_iff (accounts : List (String × String))
    (iamConfigs : List IamConfigEntry) :
    metadataReadOnlyRoles accounts iamConfigs ≠ []
      ↔ ∃ cfg ∈ iamConfigs, ∃ role ∈ cfg.roles.getD [],
          role.metaDataReadOnlyAccess = true := by
  constructor
  · intro hne
    by_contra hno
    push_neg at hno
    apply hne
    rw [metadataReadOnlyRoles_eq_nil_iff]
    intro cfg hc role hrole
    simpa using hno cfg hc role hrole
  · rintro ⟨cfg, hc, role, hrole, hflag⟩ hnil
    have hall := (metadataReadOnlyRoles_eq_nil_iff accounts iamConfigs).mp hnil
    rw [hall cfg hc role hrole] at hflag
    exact Bool.false_ne_true hflag

/-- C10: in the first `createMetadataService` definition, the metadata
read-only key statement is attached if and only if some configured IAM role
has `meta-data-read-only-access`, and likewise — separately — the read-only
bucket statement: with no flagged role, neither the key nor the bucket
receives a read-only-principal statement. The second, older definition
guards only on the array object and attaches them always, with a possibly
empty principal list. -/
theorem metadata_readonly_statements_iff_flagged_role
    (accounts : List (String × String)) (iamConfigs : List IamConfigEntry) :
    (metadataReadOnlyKeyStatement (metadataReadOnlyRoles accounts iamConfigs)
        ∈ (createMetadataService accounts iamConfigs).1
      ↔ ∃ cfg ∈ iamConfigs, ∃ role ∈ cfg.roles.getD [],
          role.metaDataReadOnlyAccess = true)
    ∧ (metadataReadOnlyBucketStatement (metadataReadOnlyRoles accounts iamConfigs)
        ∈ (createMetadataService accounts iamConfigs).2
      ↔ ∃ cfg ∈ iamConfigs, ∃ role ∈ cfg.roles.getD [],
          role.metaDataReadOnlyAccess = true)
    ∧ metadataReadOnlyKeyStatement (metadataReadOnlyRoles accounts iamConfigs)
        ∈ (createMetadataServiceV2 accounts iamConfigs).1
    ∧ metadataReadOnlyBucketStatement (metadataReadOnlyRoles accounts iamConfigs)
        ∈ (createMetadataServiceV2 accounts iamConfigs).2 := by
  refine ⟨⟨?_, ?_⟩, ⟨?_, ?_⟩, ?_, ?_⟩
  · intro hkey
    refine (metadataReadOnlyRoles_ne_nil_iff accounts iamConfigs).mp ?_
    intro hnil
    rw [createMetadataService, hnil] at hkey
    exact absurd hkey (by decide)
  · intro hex
    have hlen : (metadataReadOnlyRoles accounts iamConfigs).length > 0 :=
      List.length_pos.mpr ((metadataReadOnlyRoles_ne_nil_iff accounts iamConfigs).mpr hex)
    simp [createMetadataService, metadataKeyPolicy, hlen]
  · intro hbucket
    refine (metadataReadOnlyRoles_ne_nil_iff accounts iamConfigs).mp ?_
    intro hnil
    rw [createMetadataService, hnil] at hbucket
    exact absurd hbucket (by decide)
  · intro hex
    have hlen : (metadataReadOnlyRoles accounts iamConfigs).length > 0 :=
      List.length_pos.mpr ((metadataReadOnlyRoles_ne_nil_iff accounts iamConfigs).mpr hex)
    simp [createMetadataService, metadataBucketPolicy, hlen]
  · simp [createMetadataServiceV2, metadataKeyPolicyV2, jsArrayTruthy]
  · simp [createMetadataServiceV2, metadataBucketPolicyV2, jsArrayTruthy]

end Accelerator
